import Mathlib

/-!
# MolID — formal verification of the core search / ingestion logic

Shallow embedding of the MolID repository (FAIRmat-NFDI/molid) in Lean 4.

The embedding mirrors, definition by definition, the Python source:
* `molid/utils/identifiers.py`  — `normalize_query`
* `molid/search/service.py`     — `SearchService.search` (auto mode) and
  `_search_offline_basic`
* `molid/search/db_lookup.py`   — `basic_offline_search`
* `molid/utils/ftp_utils.py`    — `validate_start_position`, `attempt_download`
* `molid/pubchemproc/pubchem.py` — `process_file`
* `molid/pubchemproc/fetch.py`  — `_is_cas_rn`, `_resolve_to_cids`,
  `fetch_molecule_data`
* `molid/pubchemproc/pubchem_client.py` — `resolve_to_cids`
* `molid/db/cas_enrich.py`      — `enrich_cas_for_cids`
* `molid/db/offline_db_cli.py`  — `update_database`

External effects (SQLite rows, FTP transfers, HTTP responses, gzip validity)
are abstracted into explicit function parameters / oracle fields, while all
control flow and data manipulation is translated directly from the source.
-/

set_option autoImplicit false

namespace MolID

/-! ## Python-style dictionaries (string keyed records)

Result records in the Python code are `dict[str, Any]`; we model them as
association lists with Python `d[k] = v` / `d.setdefault` / `d.get`
semantics (insertion order preserved, assignment overwrites in place). -/

/-- A Python result record `dict[str, str]` as an ordered association list. -/
abbrev Rec := List (String × String)

/-- Python `d[k] = v`: overwrite in place if the key exists, else append. -/
def dictSet (d : Rec) (k v : String) : Rec :=
  if d.any (fun p => p.1 = k) then
    d.map (fun p => if p.1 = k then (k, v) else p)
  else
    d ++ [(k, v)]

/-- Python `d.get(k)`: the stored value, or `none` if the key is absent. -/
def dictGet? (d : Rec) (k : String) : Option String :=
  (d.find? (fun p => p.1 = k)).map (fun p => p.2)

/-- Python `d.setdefault(k, v)`: insert only when the key is absent. -/
def dictSetdefault (d : Rec) (k v : String) : Rec :=
  if (dictGet? d k).isSome then d else d ++ [(k, v)]

/-- Python truthiness of `d.get(k)` for string values:
`None` and `""` are falsy. -/
def truthyGet (d : Rec) (k : String) : Bool :=
  match dictGet? d k with
  | none => false
  | some s => s ≠ ""

/-! ## Python string primitives

The embedding implements the Python string operations it needs over
`List Char` (a `String`'s character list), so that every definition is
executable by kernel reduction.  `pystrip` models `str.strip()` for the
ASCII whitespace appearing in the data handled here. -/

/-- Python `s.strip()`: drop leading and trailing whitespace. -/
def pystrip (cs : List Char) : List Char :=
  ((cs.dropWhile Char.isWhitespace).reverse.dropWhile Char.isWhitespace).reverse

/-- Python `s.startswith(pre)`. -/
def pyStartsWith : List Char → List Char → Bool
  | _, [] => true
  | [], _ :: _ => false
  | c :: cs, p :: ps => c = p && pyStartsWith cs ps

/-- Python `"\n".join(lines)`. -/
def joinNL : List (List Char) → List Char
  | [] => []
  | [x] => x
  | x :: xs => x ++ '\n' :: joinNL xs

/-- Python `s.lower()` (ASCII). -/
def pyLower (s : String) : String :=
  String.mk (s.data.map Char.toLower)

/-- The numeric value of an ASCII digit run. -/
def digitsToNat (ds : List Char) : Nat :=
  ds.foldl (fun n d => n * 10 + (d.toNat - 48)) 0

/-- Python `int(s)` on a stripped string: optional sign, ASCII digits. -/
def pyParseInt (cs : List Char) : Option Int :=
  match cs with
  | '-' :: ds =>
    if ds ≠ [] ∧ ds.all Char.isDigit then some (-(digitsToNat ds : Int)) else none
  | '+' :: ds =>
    if ds ≠ [] ∧ ds.all Char.isDigit then some ((digitsToNat ds : Int)) else none
  | ds =>
    if ds ≠ [] ∧ ds.all Char.isDigit then some ((digitsToNat ds : Int)) else none

/-! ## CAS registry-number validation (`_is_cas_rn`)

`molid/pubchemproc/fetch.py` lines 74–81 (and the stripping variant in
`molid/db/cas_enrich.py` lines 27–32) validate a CAS RN with the regex
`\d{2,7}-\d{2}-\d` plus a weighted checksum.  The regex is translated as a
deterministic scan: a maximal digit run, a hyphen, a digit run, a hyphen, a
final digit, with the group-length constraints of the pattern (ASCII digits,
which is what CAS numbers consist of). -/

/-- The checksum accumulator of `_is_cas_rn`:
`digits = (p1 + p2)[::-1]; sum(int(c) * (i + 1) for i, c in enumerate(digits))`. -/
def casWeightedSum (ds : List Char) : Nat :=
  (ds.reverse.enum.map (fun p => (p.2.toNat - 48) * (p.1 + 1))).sum

/-- Parse `\d{2,7}-\d{2}-\d` (full match): returns the two digit groups and
the check digit, or `none` when the string does not have that shape. -/
def casParse (s : String) : Option (List Char × List Char × Char) :=
  let cs := s.toList
  let a := cs.takeWhile Char.isDigit
  match cs.dropWhile Char.isDigit with
  | '-' :: r2 =>
    let b := r2.takeWhile Char.isDigit
    match r2.dropWhile Char.isDigit with
    | ['-', c] =>
      if 2 ≤ a.length ∧ a.length ≤ 7 ∧ b.length = 2 ∧ c.isDigit then
        some (a, b, c)
      else none
    | _ => none
  | _ => none

/-- `_is_cas_rn` from `molid/pubchemproc/fetch.py`: regex shape plus
`checksum == int(check)` where the checksum is the weighted digit sum mod 10. -/
def is_cas_rn (s : String) : Bool :=
  match casParse s with
  | none => false
  | some (a, b, c) => casWeightedSum (a ++ b) % 10 = c.toNat - 48

/-- `_is_cas_rn` from `molid/db/cas_enrich.py`: identical, but applied to
`(s or "").strip()`. -/
def cas_enrich_is_rn (s : String) : Bool :=
  is_cas_rn (String.mk (pystrip s.data))

/-- The spec's description of a valid registry number, written from the
spec's words for comparison with the source validator: 2–7 digits, a hyphen,
2 digits, a hyphen, 1 check digit, and the non-check digits weighted
1,2,3,... from the rightmost sum to the check digit modulo 10. -/
def casSpecValid (s : String) : Prop :=
  ∃ (a b : List Char) (c : Char),
    s.toList = a ++ '-' :: (b ++ '-' :: [c]) ∧
    2 ≤ a.length ∧ a.length ≤ 7 ∧ (∀ d ∈ a, d.isDigit) ∧
    b.length = 2 ∧ (∀ d ∈ b, d.isDigit) ∧ c.isDigit ∧
    casWeightedSum (a ++ b) % 10 = c.toNat - 48

/-- `enrich_cas_for_cids` (`molid/db/cas_enrich.py` lines 76–84): the rows
inserted into `cas_mapping` for one CID from its cross-reference list, with
`confidence = 2` when the RN validates and `1` otherwise (`source = "xref"`). -/
def enrich_cas_inserts (cid : Int) (rns : List String) :
    List (String × Int × String × Nat) :=
  rns.map (fun rn => (rn, cid, "xref", if cas_enrich_is_rn rn then 2 else 1))

example : is_cas_rn "7732-18-5" = true := by decide
example : is_cas_rn "7732-18-4" = false := by decide
example : is_cas_rn "50-00-0" = true := by decide
example : is_cas_rn "1-00-0" = false := by decide

/-! ## Exceptions

One condition type shared by the whole embedding.  The constructors mirror
the Python exception classes that the search engine distinguishes
(`molid/search/service.py`, `molid/utils/identifiers.py`), the `requests`
HTTP error, and Python's built-in `TypeError`/`ValueError`. -/

/-- Python exceptions appearing in the search / fetch control flow. -/
inductive PyExc where
  | moleculeNotFound
  | databaseNotFound
  | unsupportedIdentifierForMode
  | fileNotFoundError
  | permissionError
  | valueError
  | typeError
  | httpError (status : Nat)
  | otherError
  deriving DecidableEq, Repr

/-! ## Remote CID resolution (`_resolve_to_cids` / `resolve_to_cids`)

The HTTP call is abstracted to its final response after the retry adapter:
a status code plus the CID list the JSON body parses to ( `[]` when the body
has no `IdentifierList.CID` / `Information[0].CID`). -/

/-- Final HTTP response of the `/cids/JSON` resolution endpoint. -/
structure HttpResp where
  status : Nat
  cids : List Int
  deriving DecidableEq, Repr

/-- `requests` `raise_for_status()`: raises `HTTPError` for 4xx/5xx. -/
def raiseForStatus (resp : HttpResp) : Except PyExc Unit :=
  if 400 ≤ resp.status ∧ resp.status < 600 then .error (.httpError resp.status)
  else .ok ()

/-- `_resolve_to_cids` from `molid/pubchemproc/fetch.py` lines 83–97:
`r.raise_for_status()` with no special casing, then parse the CID list. -/
def _resolve_to_cids (resp : HttpResp) : Except PyExc (List Int) := do
  let _ ← raiseForStatus resp
  .ok resp.cids

/-- `resolve_to_cids` from `molid/pubchemproc/pubchem_client.py` lines 63–111:
a 404 answer is returned as the empty hit list before `raise_for_status`. -/
def resolve_to_cids (resp : HttpResp) : Except PyExc (List Int) := do
  if resp.status = 404 then
    .ok []
  else do
    let _ ← raiseForStatus resp
    .ok resp.cids

/-! ## `fetch_molecule_data` (`molid/pubchemproc/fetch.py` lines 188–240)

The per-CID property fetch, PUG-View IUPAC fallback and cross-reference
fetch are abstracted to environment functions (they are further HTTP calls
whose outcomes the claims quantify over); all record post-processing is
translated literally. -/

/-- Remote-service environment seen by one `fetch_molecule_data` call. -/
structure FetchEnv where
  /-- Response of the identifier → CID resolution request. -/
  resolveResp : HttpResp
  /-- `_fetch_properties_by_cid`: parsed `PropertyTable.Properties`. -/
  props : Int → List Rec
  /-- `_fetch_iupac_from_pugview`: optional IUPAC name fallback. -/
  iupacView : Int → Option String
  /-- `_fetch_cas_rn_by_cid`: CAS cross-reference list (best effort). -/
  rns : Int → List String

/-- The CAS block of `fetch_molecule_data`: first validating RN wins,
else `setdefault` to the first RN of the list; no-op on an empty list. -/
def applyCasBlock (r : Rec) (rns : List String) : Rec :=
  match rns with
  | [] => r
  | r0 :: _ =>
    match rns.find? is_cas_rn with
    | some rn => dictSetdefault (dictSet r "CAS" rn) "CAS" r0
    | none => dictSetdefault r "CAS" r0

/-- `fetch_molecule_data`: resolve the identifier to CIDs (except in `cid`
mode), fetch properties for the first CID, then enrich the first record
(IUPAC name fallback, CAS cross-reference, CAS echo for `cas` queries). -/
def fetch_molecule_data (idType idValue : String) (env : FetchEnv) :
    Except PyExc (List Rec) :=
  let t := pyLower idType
  if t = "cid" then
    match pyParseInt (pystrip idValue.data) with
    | none => .error .valueError
    | some cid =>
      match env.props cid with
      | [] => .ok []
      | rec0 :: rest =>
        let r1 :=
          if ¬ truthyGet rec0 "IUPACName" then
            match env.iupacView cid with
            | some iupac => dictSet rec0 "IUPACName" iupac
            | none => rec0
          else rec0
        .ok (applyCasBlock r1 (env.rns cid) :: rest)
  else do
    let cids ← _resolve_to_cids env.resolveResp
    match cids with
    | [] => .ok []
    | cid :: _ =>
      match env.props cid with
      | [] => .ok []
      | rec0 :: rest =>
        let r1 := dictSetdefault rec0 "CID" (toString cid)
        let r2 :=
          if ¬ truthyGet r1 "IUPACName" then
            match env.iupacView cid with
            | some iupac => dictSet r1 "IUPACName" iupac
            | none =>
              if truthyGet r1 "Title" then
                match dictGet? r1 "Title" with
                | some ttl => dictSet r1 "IUPACName" ttl
                | none => r1
              else r1
          else r1
        let r3 := applyCasBlock r2 (env.rns cid)
        let r4 := if t = "cas" then dictSetdefault r3 "CAS" idValue else r3
        .ok (r4 :: rest)

/-! ## Query normalization (`molid/utils/identifiers.py` lines 17–43) -/

/-- `_BASIC_ALLOWED` from `molid/utils/identifiers.py`. -/
def BASIC_ALLOWED : List String :=
  ["cid", "title", "iupacname", "molecularformula", "inchi", "inchikey",
   "smiles", "canonicalsmiles", "cas"]

/-- `_ADV_ALLOWED = _BASIC_ALLOWED + ("isomericsmiles",)`. -/
def ADV_ALLOWED : List String := BASIC_ALLOWED ++ ["isomericsmiles"]

/-- The `mode` literal of `normalize_query`. -/
inductive NQMode where
  | basic
  | advanced
  deriving DecidableEq, Repr

/-- `normalize_query`: case-fold the single key, reject keys outside the
mode's allow list with the soft `UnsupportedIdentifierForMode`, convert
structure identifiers via the external converter `conv`
(`convert_to_inchikey`), and reject formulas without an uppercase character
with a hard `ValueError`.  A query without exactly one entry is a
`ValueError` as well. -/
def normalize_query (conv : String → String → String)
    (query : List (String × String)) (mode : NQMode) :
    Except PyExc (String × String) :=
  match query with
  | [(k0, v)] =>
    let k := pyLower k0
    let allowed := match mode with
      | .basic => BASIC_ALLOWED
      | .advanced => ADV_ALLOWED
    if ¬ allowed.contains k then
      .error .unsupportedIdentifierForMode
    else if k = "smiles" ∨ k = "canonicalsmiles" ∨ k = "isomericsmiles" then
      .ok ("inchikey", conv v "smiles")
    else if k = "inchi" then
      .ok ("inchikey", conv v k)
    else if (k = "formula" ∨ k = "molecularformula") ∧ ¬ v.data.any Char.isUpper then
      .error .valueError
    else if k = "formula" then
      .ok ("molecularformula", v)
    else
      .ok (k, v)
  | _ => .error .valueError

/-! ## Offline basic search (`molid/search/db_lookup.py` lines 37–61,
`molid/search/service.py` lines 200–209)

The SQLite table is abstracted to its two lookup columns; `query_one`
returns an optional row. -/

/-- `compound_data` lookups used by `basic_offline_search`. -/
structure MasterStore where
  byInChIKey : String → Option Rec
  byInChIKey14 : String → Option Rec

/-- `basic_offline_search` (`db_lookup.py`): `None` when the database file
is missing; `[row]` on an exact `InChIKey` hit; otherwise
`[query_one(InChIKey14 = id_value[:14])]` — note that this wraps the
possibly-`None` prefix result in a list. -/
def basic_offline_search (dbExists : Bool) (store : MasterStore)
    (idValue : String) : Option (List (Option Rec)) :=
  if ¬ dbExists then none
  else
    match store.byInChIKey idValue with
    | some row => some [some row]
    | none => some [store.byInChIKey14 (String.mk (idValue.data.take 14))]

/-- `SearchService._search_offline_basic` (`service.py`): raise
`MoleculeNotFound` when the lookup result is Python-falsy (`None` or `[]`),
else return it with provenance `"master"`.  N.B. the actual call site
`basic_offline_search(self.master_db, id_type, id_value)` passes three
positional arguments to the two-parameter function, so in the source every
call raises `TypeError` before reaching this logic; the definition below
embeds the lookup the call intends. -/
def search_offline_basic (dbExists : Bool) (store : MasterStore)
    (idValue : String) : Except PyExc (List (Option Rec) × String) :=
  match basic_offline_search dbExists store idValue with
  | none => .error .moleculeNotFound
  | some l => if l.isEmpty then .error .moleculeNotFound else .ok (l, "master")

/-! ## Auto mode (`SearchService.search`, `molid/search/service.py` 102–170)

Each tier's attempt (the `self._dispatch[tier](query_lc)` call) is an
environment function returning records-plus-provenance or raising a
condition.  The availability gates mirror `_has_readable_file` /
`_is_writable_dir` through three environment booleans. -/

/-- Environment of one auto-mode `search` call. -/
structure AutoEnv where
  masterReadable : Bool
  cacheReadable : Bool
  cacheDirWritable : Bool
  attempt : String → Except PyExc (List Rec × String)

/-- The availability/permission gates at the top of the tier loop:
offline tiers need a readable master DB (offline-advanced additionally a
readable cache DB); online-cached needs a writable cache directory. -/
def tierGate (env : AutoEnv) (tier : String) : Bool :=
  if pyStartsWith tier.data "offline".data ∧ ¬ env.masterReadable then false
  else if tier = "offline-advanced" ∧ ¬ env.cacheReadable then false
  else if tier = "online-cached" ∧ ¬ env.cacheDirWritable then false
  else true

/-- The conditions the tier loop absorbs into fall-through: the four
`except` clauses before the bare `except Exception: raise`. -/
def absorbable : PyExc → Bool
  | .unsupportedIdentifierForMode => true
  | .moleculeNotFound => true
  | .databaseNotFound => true
  | .fileNotFoundError => true
  | .permissionError => true
  | _ => false

/-- The auto-mode tier loop of `SearchService.search`: skip gated tiers,
absorb the fall-through conditions, re-raise anything else, skip empty
result lists, and raise `MoleculeNotFound` once the priority list is
exhausted. -/
def autoSearch (env : AutoEnv) : List String → Except PyExc (List Rec × String)
  | [] => .error .moleculeNotFound
  | tier :: rest =>
    if ¬ tierGate env tier then autoSearch env rest
    else
      match env.attempt tier with
      | .error e => if absorbable e then autoSearch env rest else .error e
      | .ok (records, source) =>
        if records.isEmpty then autoSearch env rest else .ok (records, source)

/-! ## Download resume (`molid/utils/ftp_utils.py` lines 36–79)

The partial local file is abstracted to its byte length plus a gzip-validity
oracle (`validate_partial_file` reads the stream through `gzip`); the remote
archive is a byte list whose length is the server-reported size. -/

/-- A partial local `.gz` file: its size and whether `validate_partial_file`
accepts it as a well-formed (possibly truncated) gzip stream. -/
structure LocalGz where
  size : Nat
  validGz : Bool
  deriving DecidableEq, Repr

/-- `validate_start_position`: returns the byte offset the transfer starts
from, paired with whether the partial file was deleted.  No file → start 0;
corrupt file → delete, start 0; valid file longer than the remote size →
delete, start 0; otherwise resume from the current length. -/
def validate_start_position (localFile : Option LocalGz) (ftpSize : Nat) :
    Nat × Bool :=
  match localFile with
  | none => (0, false)
  | some f =>
    if ¬ f.validGz then (0, true)
    else if f.size > ftpSize then (0, true)
    else (f.size, false)

/-- `attempt_download`: local content after the transfer, paired with the
number of bytes transferred.  With a positive start position the file is
opened in append mode and `RETR` runs with `rest=start`; when the server
rejects `REST` the file is truncated and fetched fully. -/
def attempt_download (remote : List Nat) (localContent : List Nat)
    (startPosition : Nat) (restSupported : Bool) : List Nat × Nat :=
  if startPosition > 0 then
    if restSupported then
      (localContent.take startPosition ++ remote.drop startPosition,
       (remote.drop startPosition).length)
    else (remote, remote.length)
  else (remote, remote.length)

/-! ## Ingestion run (`update_database`, `molid/db/offline_db_cli.py` 50–185)

One planned archive is abstracted to the outcomes of its external steps
(ledger lookup, checksum fetches, downloads, verification, processing);
the loop body, the skip test, the consecutive-failure counter and the
threshold checks are translated literally. -/

/-- A `processed_archives` ledger row as read by `get_archive_state`. -/
structure LedgerEntry where
  status : String
  md5 : Option String
  deriving DecidableEq, Repr

/-- Outcomes of the external steps for one planned archive. -/
structure ArchiveEnv where
  /-- An unexpected exception escapes the per-archive body
  (the `except Exception` arm). -/
  raises : Bool
  /-- `get_archive_state(database_file, file_name)`. -/
  ledger : Option LedgerEntry
  /-- The checksum-file download during the already-ingested check succeeds. -/
  md5PreFetchOk : Bool
  /-- `read_expected_md5` of that checksum file (`none` = unparsable). -/
  md5PreParsed : Option String
  /-- The archive-body download succeeds. -/
  downloadOk : Bool
  /-- The step-2 companion checksum download succeeds. -/
  md5FetchOk : Bool
  /-- `verify_md5` of the downloaded pair. -/
  verifyOk : Bool
  /-- `unpack_and_process_file` returns `True`. -/
  processOk : Bool
  /-- `read_expected_md5` at the success upsert. -/
  newMd5 : Option String
  deriving DecidableEq, Repr

/-- How the loop body left one archive. -/
inductive Outcome where
  | skipped
  | succeeded
  | downloadFailed
  | md5FetchFailed
  | checksumMismatch
  | processingFailed
  | raisedError
  deriving DecidableEq, Repr

/-- Observable effects of processing one archive.  On `raisedError` the
exception is modelled as escaping at the start of the body, so only
`outcome` and `ledgerWrite` are meaningful there. -/
structure ArchiveEffects where
  outcome : Outcome
  /-- The archive-body download was attempted. -/
  bodyDownloaded : Bool
  /-- The archive was decompressed and its records extracted. -/
  extracted : Bool
  /-- `save_to_database` wrote compound rows. -/
  compoundWrites : Bool
  /-- `upsert_archive_state` wrote this archive's ledger entry. -/
  ledgerWrite : Bool
  deriving DecidableEq, Repr

/-- Is this outcome a per-archive failure (increments the counter)? -/
def isFailure : Outcome → Bool
  | .downloadFailed => true
  | .md5FetchFailed => true
  | .checksumMismatch => true
  | .processingFailed => true
  | .raisedError => true
  | _ => false

/-- Does the loop body test the consecutive-failure threshold after this
failure?  Only the download-failure, processing-failure and unexpected-
exception increments are followed by an abort check; the checksum-fetch
failure and checksum-mismatch increments just `continue`. -/
def checksAbort : Outcome → Bool
  | .downloadFailed => true
  | .processingFailed => true
  | .raisedError => true
  | _ => false

/-- The body of the per-archive loop in `update_database`: the
already-ingested skip test (`new_md5 and new_md5 == state.get("md5")`),
then download → checksum fetch → verify → process, with the effects each
exit performs. -/
def processArchive (env : ArchiveEnv) : ArchiveEffects :=
  if env.raises then
    { outcome := .raisedError, bodyDownloaded := false, extracted := false,
      compoundWrites := false, ledgerWrite := true }
  else
    let skip :=
      match env.ledger with
      | some st =>
        if st.status = "ingested" then
          if ¬ env.md5PreFetchOk then false
          else
            match env.md5PreParsed with
            | some m => m ≠ "" ∧ st.md5 = some m
            | none => false
        else false
      | none => false
    if skip then
      { outcome := .skipped, bodyDownloaded := false, extracted := false,
        compoundWrites := false, ledgerWrite := false }
    else if ¬ env.downloadOk then
      { outcome := .downloadFailed, bodyDownloaded := true, extracted := false,
        compoundWrites := false, ledgerWrite := false }
    else if ¬ env.md5FetchOk then
      { outcome := .md5FetchFailed, bodyDownloaded := true, extracted := false,
        compoundWrites := false, ledgerWrite := false }
    else if ¬ env.verifyOk then
      { outcome := .checksumMismatch, bodyDownloaded := true, extracted := false,
        compoundWrites := false, ledgerWrite := false }
    else if env.processOk then
      { outcome := .succeeded, bodyDownloaded := true, extracted := true,
        compoundWrites := true, ledgerWrite := true }
    else
      { outcome := .processingFailed, bodyDownloaded := true, extracted := false,
        compoundWrites := false, ledgerWrite := true }

/-- `MAX_CONSECUTIVE_FAILURES` from `molid/db/offline_db_cli.py`. -/
def MAX_CONSECUTIVE_FAILURES : Nat := 3

/-- The archive loop: effects of the archives actually attempted, given the
incoming consecutive-failure counter.  A skip or success resets the counter;
a failure increments it; the run breaks when a threshold-checking failure
leaves the counter at or above `MAX_CONSECUTIVE_FAILURES`. -/
def runArchives : Nat → List ArchiveEnv → List ArchiveEffects
  | _, [] => []
  | c, env :: rest =>
    let eff := processArchive env
    if isFailure eff.outcome then
      if checksAbort eff.outcome ∧ c + 1 ≥ MAX_CONSECUTIVE_FAILURES then [eff]
      else eff :: runArchives (c + 1) rest
    else eff :: runArchives 0 rest

/-- Result of one `update_database` run. -/
structure RunResult where
  schemaCreated : Bool
  downloadDirCreated : Bool
  processedDirCreated : Bool
  abortedForDisk : Bool
  attempted : List ArchiveEffects
  deriving DecidableEq, Repr

/-- `update_database`: `init_db` (schema DDL) and the two `os.makedirs`
calls run first; only then `check_disk_space(50)` is consulted and the run
exits when fewer than 50 GB are free; otherwise the plan is processed by
the archive loop with the counter starting at zero. -/
def update_database (freeSpaceGB : ℚ) (plan : List ArchiveEnv) : RunResult :=
  if freeSpaceGB < 50 then
    { schemaCreated := true, downloadDirCreated := true,
      processedDirCreated := true, abortedForDisk := true, attempted := [] }
  else
    { schemaCreated := true, downloadDirCreated := true,
      processedDirCreated := true, abortedForDisk := false,
      attempted := runArchives 0 plan }

/-! ## SDF record extraction (`process_file`, `molid/pubchemproc/pubchem.py`
lines 21–60)

The input stream is the list of its lines (without trailing newlines, which
is what iterating a text file yields after the `rstrip("\n")` the inner
loop performs).  The inner value loop consumes lines from the same iterator
as the outer loop, which the embedding reflects by recursing on the rest
list returned by the body scan. -/

/-- `FIELDS_TO_EXTRACT` from `molid/pubchemproc/pubchem.py`. -/
def FIELDS_TO_EXTRACT : List (String × String) :=
  [("CID", "PUBCHEM_COMPOUND_CID"),
   ("Name", "Title"),
   ("IUPACName", "PUBCHEM_IUPAC_NAME"),
   ("Formula", "PUBCHEM_MOLECULAR_FORMULA"),
   ("ExactMass", "PUBCHEM_EXACT_MASS"),
   ("MolecularWeight", "PUBCHEM_MOLECULAR_WEIGHT"),
   ("MonoisotopicMass", "PUBCHEM_MONOISOTOPIC_MASS"),
   ("SMILES", "PUBCHEM_SMILES"),
   ("InChIKey", "PUBCHEM_IUPAC_INCHIKEY"),
   ("InChI", "PUBCHEM_IUPAC_INCHI")]

/-- `[k for k, v in FIELDS_TO_EXTRACT.items() if v == property_name][0]`,
guarded by `property_name in FIELDS_TO_EXTRACT.values()`. -/
def tagToKey (tag : String) : Option String :=
  (FIELDS_TO_EXTRACT.find? (fun p => p.2 = tag)).map (fun p => p.1)

/-- Parser state of `process_file`.  The inner `for vline in file` loop of
the source consumes lines from the same iterator as the outer loop; it is
rendered as the `body` state, which holds the mapped output key of the tag
being read and the value lines collected so far (most recent first). -/
inductive ScanMode where
  | top
  | body (key : String) (valueLines : List String)
  deriving DecidableEq, Repr

/-- One pass of `process_file` over the remaining lines: in `top` state a
configured tagged header (`line.strip()` starting with `"> <"`, tag mapped
by `FIELDS_TO_EXTRACT`) switches to `body`; `$$$$` emits a nonempty
`compound_data` accumulator and resets it; anything else is skipped.  In
`body` state a blank line closes the value (`"\n".join(value_lines).strip()`)
and assigns it to the mapped key.  A record or value pending at end of input
is dropped, exactly as in the source where the final accumulator is never
appended. -/
def processSM : List String → ScanMode → Rec → List Rec
  | [], _, _ => []
  | line :: rest, .body key vlines, acc =>
    if line = "" then
      processSM rest .top
        (dictSet acc key
          (String.mk (pystrip (joinNL (vlines.reverse.map String.data)))))
    else
      processSM rest (.body key (line :: vlines)) acc
  | line :: rest, .top, acc =>
    let l := pystrip line.data
    if pyStartsWith l "> <".data then
      match tagToKey (String.mk (l.drop 3).dropLast) with
      | some key => processSM rest (.body key []) acc
      | none => processSM rest .top acc
    else if l = "$$$$".data then
      (if acc.isEmpty then [] else [acc]) ++ processSM rest .top []
    else
      processSM rest .top acc

/-- `process_file`: run the extractor over the whole input from the initial
state with an empty accumulator. -/
def process_file (lines : List String) : List Rec :=
  processSM lines .top []

example :
    process_file
      ["header junk", "> <PUBCHEM_COMPOUND_CID>", "280", "",
       "> <UNMAPPED_TAG>", "zzz", "",
       "> <PUBCHEM_MOLECULAR_FORMULA>", "CO2", "", "$$$$",
       "> <PUBCHEM_SMILES>", "C(=O)=O", "", "$$$$", "trailing", "ignored"]
      = [[("CID", "280"), ("Formula", "CO2")], [("SMILES", "C(=O)=O")]] := by
  decide

/-! ## Helper lemmas: Python dictionaries -/

theorem find?_map_overwrite (d : Rec) (k v : String) :
    (d.map (fun p => if p.1 = k then (k, v) else p)).find? (fun p => p.1 = k) =
      if d.any (fun p => p.1 = k) then some (k, v) else none := by
  induction d with
  | nil => simp
  | cons hd tl ih =>
    by_cases hk : hd.1 = k
    · simp [List.find?, List.any_cons, hk]
    · simp only [List.map_cons, List.find?, List.any_cons, if_neg hk]
      simp only [hk, decide_False, Bool.false_or]
      exact ih

theorem dictGet?_dictSet_self (d : Rec) (k v : String) :
    dictGet? (dictSet d k v) k = some v := by
  unfold dictSet dictGet?
  by_cases h : d.any (fun p => p.1 = k)
  · rw [if_pos h, find?_map_overwrite, if_pos h]
    rfl
  · rw [if_neg h, List.find?_append]
    have hnone : d.find? (fun p => p.1 = k) = none := by
      rw [List.find?_eq_none]
      intro p hp hpk
      exact h (List.any_eq_true.mpr ⟨p, hp, hpk⟩)
    simp [hnone, List.find?]

theorem dictSetdefault_of_isSome (d : Rec) (k v : String)
    (h : (dictGet? d k).isSome) : dictSetdefault d k v = d := by
  unfold dictSetdefault
  rw [if_pos h]

theorem dictSet_ne_nil (d : Rec) (k v : String) : dictSet d k v ≠ [] := by
  unfold dictSet
  by_cases h : d.any (fun p => p.1 = k)
  · rw [if_pos h]
    intro hnil
    rw [List.map_eq_nil_iff] at hnil
    subst hnil
    simp at h
  · rw [if_neg h]
    simp

theorem dictSet_keys_subset (d : Rec) (k v : String) (ks : List String)
    (hd : ∀ p ∈ d, p.1 ∈ ks) (hk : k ∈ ks) :
    ∀ p ∈ dictSet d k v, p.1 ∈ ks := by
  unfold dictSet
  by_cases h : d.any (fun p => p.1 = k)
  · rw [if_pos h]
    intro p hp
    rw [List.mem_map] at hp
    obtain ⟨q, hq, hqe⟩ := hp
    by_cases hqk : q.1 = k
    · rw [if_pos hqk] at hqe
      rw [← hqe]
      exact hk
    · rw [if_neg hqk] at hqe
      rw [← hqe]
      exact hd q hq
  · rw [if_neg h]
    intro p hp
    rcases List.mem_append.mp hp with h1 | h2
    · exact hd p h1
    · rw [List.mem_singleton] at h2
      rw [h2]
      exact hk

/-! ## Helper lemmas: CAS shape parsing -/

theorem takeWhile_append_of_not {p : Char → Bool} (a : List Char) (x : Char)
    (r : List Char) (ha : ∀ d ∈ a, p d = true) (hx : p x = false) :
    (a ++ x :: r).takeWhile p = a ∧ (a ++ x :: r).dropWhile p = x :: r := by
  induction a with
  | nil => simp [List.takeWhile, List.dropWhile, hx]
  | cons hd tl ih =>
    have hhd : p hd = true := ha hd (List.mem_cons_self hd tl)
    have htl : ∀ d ∈ tl, p d = true := fun d hd' => ha d (List.mem_cons_of_mem _ hd')
    obtain ⟨ih1, ih2⟩ := ih htl
    constructor
    · simp [List.takeWhile, hhd, ih1]
    · simp [List.dropWhile, hhd, ih2]

theorem is_cas_rn_iff_spec (s : String) : is_cas_rn s = true ↔ casSpecValid s := by
  constructor
  · intro h
    unfold is_cas_rn at h
    rcases hp : casParse s with _ | ⟨a, b, c⟩
    · rw [hp] at h
      cases h
    · rw [hp] at h
      unfold casParse at hp
      simp only [] at hp
      split at hp
      · rename_i c1r2 r2 heq
        split at hp
        · rename_i r3 c' heq2
          split at hp
          · rename_i hguard
            obtain ⟨h27, h7, hb2, hcd⟩ := hguard
            simp only [Option.some.injEq, Prod.mk.injEq] at hp
            obtain ⟨rfl, rfl, rfl⟩ := hp
            refine ⟨List.takeWhile Char.isDigit s.toList,
              List.takeWhile Char.isDigit r2, c', ?_, h27, h7, ?_, hb2, ?_, hcd, ?_⟩
            · have e1 : s.toList = s.toList.takeWhile Char.isDigit ++
                  s.toList.dropWhile Char.isDigit :=
                (List.takeWhile_append_dropWhile Char.isDigit s.toList).symm
              have e2 : r2 = r2.takeWhile Char.isDigit ++ r2.dropWhile Char.isDigit :=
                (List.takeWhile_append_dropWhile Char.isDigit r2).symm
              rw [heq2] at e2
              conv_lhs => rw [e1, heq, e2]
            · intro d hd
              exact List.mem_takeWhile_imp hd
            · intro d hd
              exact List.mem_takeWhile_imp hd
            · simpa using of_decide_eq_true h
          · cases hp
        · cases hp
      · cases hp
  · rintro ⟨a, b, c, hs, h27, h7, hadig, hb2, hbdig, hcd, hsum⟩
    have hdash : Char.isDigit '-' = false := by decide
    obtain ⟨hta, hda⟩ := takeWhile_append_of_not a '-' (b ++ '-' :: [c])
      (fun d hd => hadig d hd) hdash
    obtain ⟨htb, hdb⟩ := takeWhile_append_of_not b '-' [c]
      (fun d hd => hbdig d hd) hdash
    unfold is_cas_rn casParse
    simp only [hs, hda, hta, htb, hdb]
    rw [if_pos ⟨h27, h7, hb2, hcd⟩]
    exact decide_eq_true hsum

theorem dictGet?_dictSetdefault_of_some (d : Rec) (k v w : String)
    (h : dictGet? d k = some w) :
    dictGet? (dictSetdefault d k v) k = some w := by
  rw [dictSetdefault_of_isSome d k v (by rw [h]; rfl)]
  exact h

theorem applyCasBlock_get (r : Rec) (rns : List String) (rn : String)
    (h : rns.find? is_cas_rn = some rn) :
    dictGet? (applyCasBlock r rns) "CAS" = some rn := by
  cases rns with
  | nil => cases h
  | cons r0 tl =>
    unfold applyCasBlock
    rw [h]
    exact dictGet?_dictSetdefault_of_some _ _ _ _ (dictGet?_dictSet_self r "CAS" rn)

theorem resolve_ok_of_status_lt (resp : HttpResp) (h : resp.status < 400) :
    _resolve_to_cids resp = .ok resp.cids := by
  simp only [_resolve_to_cids, raiseForStatus]
  rw [if_neg (by omega)]
  rfl

/-! ## Helper lemmas: record extractor -/

/-- The output field names of the extraction table. -/
def tableKeys : List String := FIELDS_TO_EXTRACT.map (fun p => p.1)

theorem tagToKey_mem {tag key : String} (h : tagToKey tag = some key) :
    key ∈ tableKeys := by
  unfold tagToKey at h
  rcases hf : FIELDS_TO_EXTRACT.find? (fun p => p.2 = tag) with _ | p
  · rw [hf] at h
    cases h
  · rw [hf] at h
    injection h with h'
    rw [← h']
    exact List.mem_map.mpr ⟨p, List.mem_of_find?_eq_some hf, rfl⟩

/-- `processSM` instrumented to also return the parser state and accumulator
left after consuming its input, for compositional reasoning. -/
def scanSM : List String → ScanMode → Rec → List Rec × ScanMode × Rec
  | [], mode, acc => ([], mode, acc)
  | line :: rest, .body key vlines, acc =>
    if line = "" then
      scanSM rest .top
        (dictSet acc key
          (String.mk (pystrip (joinNL (vlines.reverse.map String.data)))))
    else
      scanSM rest (.body key (line :: vlines)) acc
  | line :: rest, .top, acc =>
    let l := pystrip line.data
    if pyStartsWith l "> <".data then
      match tagToKey (String.mk (l.drop 3).dropLast) with
      | some key => scanSM rest (.body key []) acc
      | none => scanSM rest .top acc
    else if l = "$$$$".data then
      let s := scanSM rest .top []
      ((if acc.isEmpty then [] else [acc]) ++ s.1, s.2)
    else
      scanSM rest .top acc

theorem processSM_eq_scan_append (xs ys : List String) (mode : ScanMode)
    (acc : Rec) :
    processSM (xs ++ ys) mode acc =
      (scanSM xs mode acc).1 ++
        processSM ys (scanSM xs mode acc).2.1 (scanSM xs mode acc).2.2 := by
  induction xs generalizing mode acc with
  | nil => simp [scanSM]
  | cons line rest ih =>
    cases mode with
    | body key vlines =>
      by_cases hl : line = ""
      · simp only [List.cons_append, processSM, scanSM, if_pos hl]
        exact ih _ _
      · simp only [List.cons_append, processSM, scanSM, if_neg hl]
        exact ih _ _
    | top =>
      by_cases hs : pyStartsWith (pystrip line.data) "> <".data
      · rcases hk : tagToKey (String.mk ((pystrip line.data).drop 3).dropLast)
          with _ | key
        · simp only [List.cons_append, processSM, scanSM, if_pos hs, hk]
          exact ih _ _
        · simp only [List.cons_append, processSM, scanSM, if_pos hs, hk]
          exact ih _ _
      · by_cases ht : pystrip line.data = "$$$$".data
        · simp only [List.cons_append, processSM, scanSM, if_neg hs, if_pos ht,
            List.append_eq]
          rw [ih .top []]
          rw [List.append_assoc]
        · simp only [List.cons_append, processSM, scanSM, if_neg hs, if_neg ht]
          exact ih _ _

theorem processSM_eq_scan (xs : List String) (mode : ScanMode) (acc : Rec) :
    processSM xs mode acc = (scanSM xs mode acc).1 := by
  have h := processSM_eq_scan_append xs [] mode acc
  simpa [processSM] using h

theorem processSM_no_terminator (ys : List String)
    (h : ∀ l ∈ ys, pystrip l.data ≠ "$$$$".data) :
    ∀ (mode : ScanMode) (acc : Rec), processSM ys mode acc = [] := by
  induction ys with
  | nil => intro mode acc; rfl
  | cons line rest ih =>
    intro mode acc
    have hrest : ∀ l ∈ rest, pystrip l.data ≠ "$$$$".data :=
      fun l hl => h l (List.mem_cons_of_mem _ hl)
    have hline : pystrip line.data ≠ "$$$$".data :=
      h line (List.mem_cons_self _ _)
    cases mode with
    | body key vlines =>
      by_cases hl : line = ""
      · simp only [processSM, if_pos hl]
        exact ih hrest _ _
      · simp only [processSM, if_neg hl]
        exact ih hrest _ _
    | top =>
      by_cases hs : pyStartsWith (pystrip line.data) "> <".data
      · rcases hk : tagToKey (String.mk ((pystrip line.data).drop 3).dropLast)
          with _ | key
        · simp only [processSM, if_pos hs, hk]
          exact ih hrest _ _
        · simp only [processSM, if_pos hs, hk]
          exact ih hrest _ _
      · simp only [processSM, if_neg hs, if_neg hline]
        exact ih hrest _ _

/-- In `body` state the pending key must be a mapped output field. -/
def modeKeyOk : ScanMode → Prop
  | .top => True
  | .body k _ => k ∈ tableKeys

theorem processSM_record_shape (lines : List String) :
    ∀ (mode : ScanMode) (acc : Rec),
      modeKeyOk mode → (∀ p ∈ acc, p.1 ∈ tableKeys) →
      ∀ r ∈ processSM lines mode acc, r ≠ [] ∧ ∀ p ∈ r, p.1 ∈ tableKeys := by
  induction lines with
  | nil =>
    intro mode acc _ _ r hr
    simp [processSM] at hr
  | cons line rest ih =>
    intro mode acc hmode hacc r hr
    cases mode with
    | body key vlines =>
      by_cases hl : line = ""
      · simp only [processSM, if_pos hl] at hr
        exact ih .top _ trivial
          (dictSet_keys_subset acc key _ tableKeys hacc hmode) r hr
      · simp only [processSM, if_neg hl] at hr
        exact ih (.body key (line :: vlines)) acc hmode hacc r hr
    | top =>
      by_cases hs : pyStartsWith (pystrip line.data) "> <".data
      · rcases hk : tagToKey (String.mk ((pystrip line.data).drop 3).dropLast)
          with _ | key
        · simp only [processSM, if_pos hs, hk] at hr
          exact ih .top acc trivial hacc r hr
        · simp only [processSM, if_pos hs, hk] at hr
          exact ih (.body key []) acc (tagToKey_mem hk) hacc r hr
      · by_cases ht : pystrip line.data = "$$$$".data
        · simp only [processSM, if_neg hs, if_pos ht] at hr
          rcases List.mem_append.mp hr with h1 | h2
          · by_cases hae : acc.isEmpty
            · rw [if_pos hae] at h1
              cases h1
            · rw [if_neg hae] at h1
              rw [List.mem_singleton] at h1
              subst h1
              refine ⟨?_, hacc⟩
              intro hnil
              exact hae (by simp [hnil])
          · exact ih .top [] trivial (by simp) r h2
        · simp only [processSM, if_neg hs, if_neg ht] at hr
          exact ih .top acc trivial hacc r hr

/-! ## Claim theorems -/

/-- C9: a registry number passes `_is_cas_rn` exactly when it is 2–7 digits,
a hyphen, 2 digits, a hyphen and 1 check digit whose weighted digit sum
(weights 1,2,3,... from the rightmost non-check digit) modulo 10 equals the
check digit; `enrich_cas_for_cids` stores a validating RN with confidence 2
and a non-validating one with confidence 1; and when a compound's
cross-reference list contains a validating RN, `fetch_molecule_data` always
returns a validating RN as the record's `CAS` value. -/
theorem C9_cas_checksum_confidence_preference :
    (∀ s : String, is_cas_rn s = true ↔ casSpecValid s) ∧
    (∀ (cid : Int) (rns : List String) (rn : String) (cidv : Int)
       (src : String) (conf : Nat),
      (rn, cidv, src, conf) ∈ enrich_cas_inserts cid rns →
      conf = if cas_enrich_is_rn rn then 2 else 1) ∧
    (∀ (idType idValue : String) (env : FetchEnv) (cid : Int) (cids : List Int)
       (rec0 : Rec) (rest : List Rec),
      pyLower idType ≠ "cid" →
      env.resolveResp.status < 400 →
      env.resolveResp.cids = cid :: cids →
      env.props cid = rec0 :: rest →
      (∃ r ∈ env.rns cid, is_cas_rn r = true) →
      ∃ (out : Rec) (rest' : List Rec) (rn : String),
        fetch_molecule_data idType idValue env = .ok (out :: rest') ∧
        dictGet? out "CAS" = some rn ∧ is_cas_rn rn = true) := by
  refine ⟨is_cas_rn_iff_spec, ?_, ?_⟩
  · intro cid rns rn cidv src conf hmem
    unfold enrich_cas_inserts at hmem
    rw [List.mem_map] at hmem
    obtain ⟨rn0, _, heq⟩ := hmem
    obtain ⟨rfl, _, _, rfl⟩ := Prod.mk.injEq .. ▸ heq
    rfl
  · intro idType idValue env cid cids rec0 rest ht hst hcids hprops hex
    have hfind : ((env.rns cid).find? is_cas_rn).isSome :=
      List.find?_isSome.mpr (by
        obtain ⟨r, hr, hv⟩ := hex
        exact ⟨r, hr, hv⟩)
    obtain ⟨rn, hrn⟩ := Option.isSome_iff_exists.mp hfind
    have hvalid : is_cas_rn rn = true := List.find?_some hrn
    unfold fetch_molecule_data
    rw [if_neg ht, resolve_ok_of_status_lt env.resolveResp hst, hcids]
    simp only [bind, Except.bind, hprops]
    by_cases hcas : pyLower idType = "cas"
    · rw [if_pos hcas]
      exact ⟨_, _, rn, rfl,
        dictGet?_dictSetdefault_of_some _ _ _ _
          (applyCasBlock_get _ (env.rns cid) rn hrn), hvalid⟩
    · rw [if_neg hcas]
      exact ⟨_, _, rn, rfl, applyCasBlock_get _ (env.rns cid) rn hrn, hvalid⟩

/-- Witness for C9: the cross-reference list `["7732-18-4", "7732-18-5"]`
holds a checksum-invalid and a checksum-valid RN; the lookup returns a
record whose `CAS` value validates. -/
theorem C9_cas_checksum_confidence_preference_witness :
    (is_cas_rn "7732-18-5" = true) ∧
    (∃ (out : Rec) (rest' : List Rec) (rn : String),
      fetch_molecule_data "name" "water"
        ⟨⟨200, [280]⟩, fun _ => [[("Title", "Water")]], fun _ => none,
         fun _ => ["7732-18-4", "7732-18-5"]⟩ = .ok (out :: rest') ∧
      dictGet? out "CAS" = some rn ∧ is_cas_rn rn = true) :=
  ⟨by decide,
   C9_cas_checksum_confidence_preference.2.2 "name" "water"
     ⟨⟨200, [280]⟩, fun _ => [[("Title", "Water")]], fun _ => none,
      fun _ => ["7732-18-4", "7732-18-5"]⟩ 280 [] [("Title", "Water")] []
     (by decide) (by decide) rfl rfl ⟨"7732-18-5", by decide, by decide⟩⟩

/-- C1: in auto mode, an `UnsupportedIdentifierForMode`, `MoleculeNotFound`,
`DatabaseNotFound`, `FileNotFoundError` or `PermissionError` raised by a
strategy makes the loop fall through to the next strategy; any other raised
condition aborts the whole search immediately; and an exhausted priority
list fails with `MoleculeNotFound`. -/
theorem C1_auto_mode_error_absorption :
    (∀ e : PyExc, absorbable e = true ↔
      (e = .unsupportedIdentifierForMode ∨ e = .moleculeNotFound ∨
       e = .databaseNotFound ∨ e = .fileNotFoundError ∨ e = .permissionError)) ∧
    (∀ (env : AutoEnv) (tier : String) (rest : List String) (e : PyExc),
      tierGate env tier = true →
      env.attempt tier = .error e →
      absorbable e = true →
      autoSearch env (tier :: rest) = autoSearch env rest) ∧
    (∀ (env : AutoEnv) (tier : String) (rest : List String) (e : PyExc),
      tierGate env tier = true →
      env.attempt tier = .error e →
      absorbable e = false →
      autoSearch env (tier :: rest) = .error e) ∧
    (∀ (env : AutoEnv) (priority : List String),
      (∀ tier ∈ priority,
        tierGate env tier = false ∨
        (∃ e, env.attempt tier = .error e ∧ absorbable e = true) ∨
        (∃ src, env.attempt tier = .ok ([], src))) →
      autoSearch env priority = .error .moleculeNotFound) := by
  refine ⟨?_, ?_, ?_, ?_⟩
  · intro e
    cases e <;> simp [absorbable]
  · intro env tier rest e hgate hatt habs
    conv_lhs => unfold autoSearch
    rw [if_neg (by rw [hgate]; simp)]
    simp only [hatt, habs, if_true]
  · intro env tier rest e hgate hatt habs
    unfold autoSearch
    rw [if_neg (by rw [hgate]; simp)]
    simp only [hatt, habs]
    simp
  · intro env priority h
    induction priority with
    | nil => rfl
    | cons tier rest ih =>
      have hrest : ∀ t ∈ rest,
          tierGate env t = false ∨
          (∃ e, env.attempt t = .error e ∧ absorbable e = true) ∨
          (∃ src, env.attempt t = .ok ([], src)) :=
        fun t ht => h t (List.mem_cons_of_mem _ ht)
      rcases h tier (List.mem_cons_self tier rest) with hg | ⟨e, hatt, habs⟩ | ⟨src, hok⟩
      · unfold autoSearch
        rw [if_pos (by rw [hg]; simp)]
        exact ih hrest
      · unfold autoSearch
        by_cases hgate : tierGate env tier
        · rw [if_neg (by rw [hgate]; simp)]
          simp only [hatt, habs, if_true]
          exact ih hrest
        · rw [if_pos (by simpa using hgate)]
          exact ih hrest
      · unfold autoSearch
        by_cases hgate : tierGate env tier
        · rw [if_neg (by rw [hgate]; simp)]
          simp only [hok, List.isEmpty_nil, if_true]
          exact ih hrest
        · rw [if_pos (by simpa using hgate)]
          exact ih hrest

/-- Witness for C1: each tier raising `MoleculeNotFound` exhausts the
priority list and the search fails with `MoleculeNotFound`. -/
theorem C1_auto_mode_error_absorption_witness :
    autoSearch ⟨true, true, true, fun _ => .error .moleculeNotFound⟩
      ["offline-basic", "online-cached", "online-only"] =
      .error .moleculeNotFound :=
  C1_auto_mode_error_absorption.2.2.2
    ⟨true, true, true, fun _ => .error .moleculeNotFound⟩
    ["offline-basic", "online-cached", "online-only"]
    (fun _ _ => Or.inr (Or.inl ⟨.moleculeNotFound, rfl, rfl⟩))

/-- C2: evaluating the offline-basic path at a full InChIKey absent from the
compound store both exactly and by 14-character prefix.  The claim says the
strategy fails with `MoleculeNotFound`; the code instead returns the
Python-truthy `[None]` with provenance `master` (and the live call site
additionally raises `TypeError`, passing three positional arguments to the
two-parameter `basic_offline_search`). -/
theorem C2_double_miss_returns_none_row :
    search_offline_basic true ⟨fun _ => none, fun _ => none⟩
      "BSYNRYMUTXBXSQ-UHFFFAOYSA-N" = .ok ([none], "master") := rfl

/-- A planned archive whose companion checksum download fails. -/
def md5FetchFailEnv : ArchiveEnv :=
  { raises := false, ledger := none, md5PreFetchOk := true, md5PreParsed := none,
    downloadOk := true, md5FetchOk := false, verifyOk := true, processOk := true,
    newMd5 := none }

/-- A planned archive whose body download fails. -/
def downloadFailEnv : ArchiveEnv :=
  { raises := false, ledger := none, md5PreFetchOk := true, md5PreParsed := none,
    downloadOk := false, md5FetchOk := true, verifyOk := true, processOk := true,
    newMd5 := none }

/-- C3 counterexample: four consecutive checksum-fetch failures.  The claim
says no archive is attempted after the third consecutive failure, so at most
3 archives would run; the loop attempts all 4, because the increment after a
checksum-fetch failure is not followed by a threshold check. -/
theorem C3_counterexample :
    (runArchives 0 (List.replicate 4 md5FetchFailEnv)).length = 4 ∧
    ∀ eff ∈ runArchives 0 (List.replicate 4 md5FetchFailEnv),
      eff.outcome = .md5FetchFailed := by
  decide

/-- C3 (amended): every per-archive failure increments the run-scoped
counter and any non-failure (success or skip) resets it to zero; but the
threshold 3 is only tested after download-failure, processing-failure and
unexpected-exception increments — after a checksum-fetch failure or a
checksum mismatch the loop continues to the next archive even when the
counter has reached the threshold. -/
theorem C3_amended_failure_counter :
    (∀ (c : Nat) (env : ArchiveEnv) (rest : List ArchiveEnv),
      isFailure (processArchive env).outcome = false →
      runArchives c (env :: rest) = processArchive env :: runArchives 0 rest) ∧
    (∀ (c : Nat) (env : ArchiveEnv) (rest : List ArchiveEnv),
      isFailure (processArchive env).outcome = true →
      checksAbort (processArchive env).outcome = true →
      MAX_CONSECUTIVE_FAILURES ≤ c + 1 →
      runArchives c (env :: rest) = [processArchive env]) ∧
    (∀ (c : Nat) (env : ArchiveEnv) (rest : List ArchiveEnv),
      isFailure (processArchive env).outcome = true →
      (checksAbort (processArchive env).outcome = false ∨
        c + 1 < MAX_CONSECUTIVE_FAILURES) →
      runArchives c (env :: rest) = processArchive env :: runArchives (c + 1) rest) := by
  refine ⟨?_, ?_, ?_⟩
  · intro c env rest h
    conv_lhs => unfold runArchives
    simp only [h]
    simp
  · intro c env rest h1 h2 h3
    conv_lhs => unfold runArchives
    simp only [h1, if_true]
    rw [if_pos ⟨h2, h3⟩]
  · intro c env rest h1 h2
    conv_lhs => unfold runArchives
    simp only [h1, if_true]
    rw [if_neg (by
      rintro ⟨ha, hc⟩
      rcases h2 with h2 | h2
      · rw [h2] at ha
        cases ha
      · omega)]

/-- Witness for C3 (amended): with the counter at 2, a download failure
trips the threshold and the run stops without attempting the rest. -/
theorem C3_amended_failure_counter_witness :
    isFailure (processArchive downloadFailEnv).outcome = true ∧
    checksAbort (processArchive downloadFailEnv).outcome = true ∧
    MAX_CONSECUTIVE_FAILURES ≤ 2 + 1 ∧
    runArchives 2 (downloadFailEnv :: [md5FetchFailEnv]) =
      [processArchive downloadFailEnv] :=
  ⟨by decide, by decide, by decide,
   C3_amended_failure_counter.2.1 2 downloadFailEnv [md5FetchFailEnv]
     (by decide) (by decide) (by decide)⟩

/-- C4: an archive whose ledger entry is `ingested` and whose freshly
fetched remote checksum equals the stored one is skipped with no body
download, no extraction and no compound or ledger writes; when the fetched
checksum differs, the loop proceeds to re-ingest (the body download is
attempted and the archive is not skipped). -/
theorem C4_ingested_checksum_skip :
    (∀ (env : ArchiveEnv) (m : String),
      env.raises = false →
      env.ledger = some ⟨"ingested", some m⟩ →
      env.md5PreFetchOk = true →
      env.md5PreParsed = some m →
      m ≠ "" →
      processArchive env =
        { outcome := .skipped, bodyDownloaded := false, extracted := false,
          compoundWrites := false, ledgerWrite := false }) ∧
    (∀ (env : ArchiveEnv) (m m' : String),
      env.raises = false →
      env.ledger = some ⟨"ingested", some m⟩ →
      env.md5PreFetchOk = true →
      env.md5PreParsed = some m' →
      m' ≠ m →
      (processArchive env).bodyDownloaded = true ∧
      (processArchive env).outcome ≠ .skipped) := by
  constructor
  · intro env m h1 h2 h3 h4 h5
    unfold processArchive
    rw [h1]
    simp only [Bool.false_eq_true, if_false, h2, h3, h4]
    simp [h5]
  · intro env m m' h1 h2 h3 h4 h5
    unfold processArchive
    rw [h1]
    simp only [Bool.false_eq_true, if_false, h2, h3, h4]
    have hne : (some m = some m') = False := by
      simp
      exact fun hmm => h5 hmm.symm
    simp only [hne]
    by_cases hd : env.downloadOk <;> by_cases h5' : env.md5FetchOk <;>
      by_cases hv : env.verifyOk <;> by_cases hp : env.processOk <;>
      simp [hd, h5', hv, hp]

/-- Witness for C4: a concrete ingested archive with matching checksum is a
no-op; the same archive with a changed upstream checksum re-downloads. -/
theorem C4_ingested_checksum_skip_witness :
    processArchive
      { raises := false, ledger := some ⟨"ingested", some "d41d8cd98f"⟩,
        md5PreFetchOk := true, md5PreParsed := some "d41d8cd98f",
        downloadOk := true, md5FetchOk := true, verifyOk := true,
        processOk := true, newMd5 := some "d41d8cd98f" } =
      { outcome := .skipped, bodyDownloaded := false, extracted := false,
        compoundWrites := false, ledgerWrite := false } :=
  C4_ingested_checksum_skip.1 _ "d41d8cd98f" rfl rfl rfl rfl (by decide)

/-- C5: the resume decision of the downloader — no partial file starts at
byte 0; a corrupt partial file is deleted and the transfer restarts at 0; a
valid partial file no longer than the remote size resumes at its byte
length, transferring exactly the remaining bytes; a valid partial file
longer than the remote size is deleted and the transfer restarts at 0. -/
theorem C5_resume_decision :
    (∀ R : Nat, validate_start_position none R = (0, false)) ∧
    (∀ (S R : Nat), validate_start_position (some ⟨S, false⟩) R = (0, true)) ∧
    (∀ (S R : Nat) (lc rm : List Nat),
      S ≤ R → lc.length = S → rm.length = R →
      validate_start_position (some ⟨S, true⟩) R = (S, false) ∧
      attempt_download rm lc S true = (lc ++ rm.drop S, R - S)) ∧
    (∀ (S R : Nat), R < S → validate_start_position (some ⟨S, true⟩) R = (0, true)) := by
  refine ⟨fun R => rfl, fun S R => rfl, ?_, ?_⟩
  · intro S R lc rm hSR hlc hrm
    constructor
    · unfold validate_start_position
      simp only []
      rw [if_neg (by simp), if_neg (by omega)]
    · unfold attempt_download
      rcases Nat.eq_zero_or_pos S with hS | hS
      · subst hS
        rw [if_neg (by omega)]
        have : lc = [] := List.eq_nil_of_length_eq_zero hlc
        subst this
        simp [hrm]
      · rw [if_pos hS, if_pos rfl]
        rw [← hlc, List.take_length, List.length_drop, hrm, hlc]
  · intro S R h
    unfold validate_start_position
    simp only []
    rw [if_neg (by simp), if_pos (by omega)]

/-- Witness for C5: a 5-byte valid partial file of an 8-byte remote archive
resumes at byte 5 and transfers exactly 3 bytes. -/
theorem C5_resume_decision_witness :
    validate_start_position (some ⟨5, true⟩) 8 = (5, false) ∧
    attempt_download [0, 1, 2, 3, 4, 5, 6, 7] [0, 1, 2, 3, 4] 5 true =
      ([0, 1, 2, 3, 4, 5, 6, 7], 3) :=
  C5_resume_decision.2.2.1 5 8 [0, 1, 2, 3, 4] [0, 1, 2, 3, 4, 5, 6, 7]
    (by decide) (by decide) (by decide)

/-- C6: evaluating the resolution paths on an HTTP 404 answer.  The wired-in
`_resolve_to_cids` of `fetch.py` calls `raise_for_status()` and propagates
`HTTPError`, so `fetch_molecule_data` raises instead of returning the empty
no-match result the claim (and the docstring of the unused
`pubchem_client.resolve_to_cids`, which does return `[]`) describes. -/
theorem C6_resolution_404 :
    _resolve_to_cids ⟨404, []⟩ = .error (.httpError 404) ∧
    resolve_to_cids ⟨404, []⟩ = .ok [] ∧
    fetch_molecule_data "name" "guanitoxin"
      ⟨⟨404, []⟩, fun _ => [], fun _ => none, fun _ => []⟩ =
      .error (.httpError 404) :=
  ⟨rfl, rfl, rfl⟩

/-- C8 counterexample: a run with 0 GB free aborts on the disk-space check,
but the schema DDL and both directory creations have already happened —
contradicting the claim that no schema or directory creation has occurred
by the time it aborts. -/
theorem C8_counterexample :
    update_database 0 [] =
      { schemaCreated := true, downloadDirCreated := true,
        processedDirCreated := true, abortedForDisk := true, attempted := [] } := by
  unfold update_database
  rw [if_pos (by norm_num)]

/-- C8 (amended): when fewer than 50 GB are free the run aborts before
fetching the plan and before any archive processing — so with no compound
or ledger writes — but after the schema DDL and the creation of the
download and processed directories, which always run first. -/
theorem C8_amended_abort_after_setup :
    ∀ (free : ℚ) (plan : List ArchiveEnv),
      free < 50 →
      update_database free plan =
        { schemaCreated := true, downloadDirCreated := true,
          processedDirCreated := true, abortedForDisk := true,
          attempted := [] } := by
  intro free plan h
  unfold update_database
  rw [if_pos h]

/-- Witness for C8 (amended): a concrete run with 1.5 GB free. -/
theorem C8_amended_abort_after_setup_witness :
    update_database (3 / 2) [md5FetchFailEnv, downloadFailEnv] =
      { schemaCreated := true, downloadDirCreated := true,
        processedDirCreated := true, abortedForDisk := true,
        attempted := [] } :=
  C8_amended_abort_after_setup (3 / 2) [md5FetchFailEnv, downloadFailEnv]
    (by norm_num)

/-- C10 counterexample: the query key `formula` is not in `_BASIC_ALLOWED`
or `_ADV_ALLOWED`, so `normalize_query` on `formula` with an
uppercase-free value raises the soft `UnsupportedIdentifierForMode`, not the
`ValueError` the claim states — and auto mode absorbs it as fall-through
(ending in `MoleculeNotFound`) instead of aborting. -/
theorem C10_counterexample :
    normalize_query (fun v _ => v) [("formula", "h2o")] .basic =
      .error .unsupportedIdentifierForMode ∧
    normalize_query (fun v _ => v) [("formula", "h2o")] .basic ≠
      .error .valueError ∧
    autoSearch ⟨true, true, true,
      fun _ => .error .unsupportedIdentifierForMode⟩ ["offline-basic"] =
      .error .moleculeNotFound := by
  refine ⟨rfl, fun h => ?_, rfl⟩
  rw [show normalize_query (fun v _ => v) [("formula", "h2o")] NQMode.basic =
        .error .unsupportedIdentifierForMode from rfl] at h
  exact absurd (Except.error.inj h) (by decide)

/-- C10 (amended): a `molecularformula` query whose value has no uppercase
character raises the hard `ValueError`, which auto mode does not absorb, so
it aborts the whole search; a `formula` query instead raises the soft
`UnsupportedIdentifierForMode` (the key is outside both allow lists), which
auto mode absorbs as fall-through. -/
theorem C10_amended_formula_case :
    (∀ (conv : String → String → String) (v : String) (mode : NQMode),
      v.data.any Char.isUpper = false →
      normalize_query conv [("molecularformula", v)] mode = .error .valueError) ∧
    (∀ (conv : String → String → String) (v : String) (mode : NQMode),
      normalize_query conv [("formula", v)] mode =
        .error .unsupportedIdentifierForMode) ∧
    absorbable .valueError = false ∧
    absorbable .unsupportedIdentifierForMode = true ∧
    (∀ (env : AutoEnv) (tier : String) (rest : List String),
      tierGate env tier = true →
      env.attempt tier = .error .valueError →
      autoSearch env (tier :: rest) = .error .valueError) := by
  refine ⟨?_, ?_, rfl, rfl, ?_⟩
  · intro conv v mode h
    cases mode <;>
      simp [normalize_query, BASIC_ALLOWED, ADV_ALLOWED, pyLower, h]
  · intro conv v mode
    cases mode <;> rfl
  · intro env tier rest hgate hatt
    conv_lhs => unfold autoSearch
    rw [if_neg (by rw [hgate]; simp)]
    simp only [hatt]
    rfl

/-- Witness for C10 (amended): the concrete query `molecularformula=h2o`
aborts a concrete auto search with `ValueError`. -/
theorem C10_amended_formula_case_witness :
    normalize_query (fun v _ => v) [("molecularformula", "h2o")] .basic =
      .error .valueError ∧
    autoSearch ⟨true, true, true, fun _ => .error .valueError⟩
      ["offline-basic", "online-only"] = .error .valueError :=
  ⟨C10_amended_formula_case.1 (fun v _ => v) "h2o" .basic (by decide),
   C10_amended_formula_case.2.2.2.2
     ⟨true, true, true, fun _ => .error .valueError⟩ "offline-basic"
     ["online-only"] (by decide) rfl⟩

/-- C7: the record extractor emits nothing when the input holds no `$$$$`
terminator line; every emitted record is nonempty and holds only fields of
the fixed extraction table; content after the last terminator is never
emitted; and whenever a terminator-closed chunk leaves the parser back in
its initial state, the output is that chunk's records followed by the rest
of the input's records — records appear in input order. -/
theorem C7_record_extractor :
    (∀ lines : List String,
      (∀ l ∈ lines, pystrip l.data ≠ "$$$$".data) → process_file lines = []) ∧
    (∀ (lines : List String) (r : Rec), r ∈ process_file lines →
      r ≠ [] ∧ ∀ p ∈ r, p.1 ∈ tableKeys) ∧
    (∀ (xs ys : List String),
      (∀ l ∈ ys, pystrip l.data ≠ "$$$$".data) →
      process_file (xs ++ "$$$$" :: ys) = process_file (xs ++ ["$$$$"])) ∧
    (∀ (xs ys : List String),
      (scanSM (xs ++ ["$$$$"]) .top []).2 = (.top, ([] : Rec)) →
      process_file (xs ++ "$$$$" :: ys) =
        process_file (xs ++ ["$$$$"]) ++ process_file ys) := by
  refine ⟨?_, ?_, ?_, ?_⟩
  · intro lines h
    exact processSM_no_terminator lines h .top []
  · intro lines r hr
    exact processSM_record_shape lines .top [] trivial (by simp) r hr
  · intro xs ys h
    unfold process_file
    rw [show xs ++ "$$$$" :: ys = (xs ++ ["$$$$"]) ++ ys by simp]
    rw [processSM_eq_scan_append]
    rw [processSM_no_terminator ys h _ _]
    rw [List.append_nil]
    exact (processSM_eq_scan _ _ _).symm
  · intro xs ys hscan
    unfold process_file
    rw [show xs ++ "$$$$" :: ys = (xs ++ ["$$$$"]) ++ ys by simp]
    rw [processSM_eq_scan_append]
    rw [processSM_eq_scan (xs ++ ["$$$$"]) .top []]
    have h1 : (scanSM (xs ++ ["$$$$"]) .top []).2.1 = .top := by rw [hscan]
    have h2 : (scanSM (xs ++ ["$$$$"]) .top []).2.2 = ([] : Rec) := by rw [hscan]
    rw [h1, h2]

/-- Witness for C7: a terminator-closed first record followed by a second
record splits into the two records in input order; the tail condition and
the in-order concatenation are evaluated on concrete SDF lines. -/
theorem C7_record_extractor_witness :
    (scanSM (["> <PUBCHEM_SMILES>", "C(=O)=O", ""] ++ ["$$$$"]) .top [] ).2 =
      (.top, ([] : Rec)) ∧
    process_file (["> <PUBCHEM_SMILES>", "C(=O)=O", ""] ++ "$$$$" ::
        ["> <PUBCHEM_IUPAC_INCHI>", "InChI=1S/CO2/c2-1-3", "", "$$$$"]) =
      process_file (["> <PUBCHEM_SMILES>", "C(=O)=O", ""] ++ ["$$$$"]) ++
        process_file ["> <PUBCHEM_IUPAC_INCHI>", "InChI=1S/CO2/c2-1-3", "",
          "$$$$"] :=
  ⟨by decide,
   C7_record_extractor.2.2.2 ["> <PUBCHEM_SMILES>", "C(=O)=O", ""]
     ["> <PUBCHEM_IUPAC_INCHI>", "InChI=1S/CO2/c2-1-3", "", "$$$$"]
     (by decide)⟩

end MolID
